import Mathlib

/-!
Verification development for the PyAPplus64 library: field maps, the
metadata-driven record-duplication component, snapshot serialization, the
SQL policy of the database-access and reporting components, and the helper
functions of the example scripts.

The staged sources of the repository contain the README, the documentation
and the example scripts; the package modules themselves (duplication, SOAP
gateway, database access, reporting) are not staged, so those components are
modelled from the specification, as marked on each definition.  The example
scripts (complete_sql.pyw, mengenabweichung_gui.pyw) are embedded from the
source directly.
-/

namespace PyAPplus64

/-- Field maps of a record: an association list from field names to values. -/
abbrev Fields := List (String × String)

/-- First-match lookup in a field map. -/
def lookupField : Fields → String → Option String
  | [], _ => none
  | (k, v) :: rest, f => if k = f then some v else lookupField rest f

/-- Set a field: replace the first binding of the key, or append a new one. -/
def setField : Fields → String → String → Fields
  | [], k, v => [(k, v)]
  | (k0, v0) :: rest, k, v =>
    if k0 = k then (k, v) :: rest else (k0, v0) :: setField rest k v

/-- Modelled from the spec: read the source record's copyable fields per the
descriptor; the record is restricted to the descriptor's copyable field list,
in the order the descriptor lists the fields. -/
def restrictFields : List String → Fields → Fields
  | [], _ => []
  | f :: rest, src =>
    match lookupField src f with
    | some v => (f, v) :: restrictFields rest src
    | none => restrictFields rest src

/-- Modelled from the spec: apply the DuplicationPlan's caller-supplied field
overrides to a field map, first to last. -/
def applyOverrides (base : Fields) (ov : Fields) : Fields :=
  ov.foldl (fun acc kv => setField acc kv.1 kv.2) base

mutual
/-- Modelled from the spec: a BusinessObjectDescriptor names a business-object
type, its identifier field, its copyable field list and its dependent-object
relations; the descriptor code itself is not among the staged sources. -/
inductive BusinessObjectDescriptor where
  | mk (boType : String) (idField : String) (copyFields : List String)
      (relations : RelList) : BusinessObjectDescriptor
/-- Modelled from the spec: the dependent relations of a descriptor, each
naming the relation, the foreign-key field linking the child to the parent,
and the child descriptor. -/
inductive RelList where
  | nil : RelList
  | cons (name : String) (fkField : String) (child : BusinessObjectDescriptor)
      (rest : RelList) : RelList
end

def BusinessObjectDescriptor.boType : BusinessObjectDescriptor → String
  | .mk bt _ _ _ => bt

def BusinessObjectDescriptor.idField : BusinessObjectDescriptor → String
  | .mk _ idF _ _ => idF

def BusinessObjectDescriptor.copyFields : BusinessObjectDescriptor → List String
  | .mk _ _ cfs _ => cfs

def BusinessObjectDescriptor.relations : BusinessObjectDescriptor → RelList
  | .mk _ _ _ rels => rels

/-- Names of the relations of a descriptor, in order. -/
def relNames : RelList → List String
  | .nil => []
  | .cons m _ _ rest => m :: relNames rest

/-- Membership of a relation (name, foreign-key field, child descriptor) in a
relation list. -/
def relMem (n fk : String) (c : BusinessObjectDescriptor) : RelList → Prop
  | .nil => False
  | .cons m fk2 c2 rest => (n = m ∧ fk = fk2 ∧ c = c2) ∨ relMem n fk c rest

mutual
/-- Modelled from the spec: a RecordSnapshot tree node holds the new field
map of one record together with the type and source identifier of the record
it was copied from, and the dependent records grouped by relation. -/
inductive Snapshot where
  | mk (boType : String) (srcId : String) (fields : Fields)
      (children : SnapChildren) : Snapshot
/-- Snapshot children grouped by relation name, in descriptor order. -/
inductive SnapChildren where
  | nil : SnapChildren
  | cons (relName : String) (objs : SnapList) (rest : SnapChildren) : SnapChildren
/-- A list of snapshot nodes (the copies made for one relation). -/
inductive SnapList where
  | nil : SnapList
  | cons (head : Snapshot) (tail : SnapList) : SnapList
end

def Snapshot.boType : Snapshot → String
  | .mk bt _ _ _ => bt

def Snapshot.srcId : Snapshot → String
  | .mk _ si _ _ => si

def Snapshot.fields : Snapshot → Fields
  | .mk _ _ fs _ => fs

def Snapshot.children : Snapshot → SnapChildren
  | .mk _ _ _ ch => ch

/-- First-match lookup of one relation's snapshot list by relation name. -/
def childrenFor : SnapChildren → String → Option SnapList
  | .nil, _ => none
  | .cons m l rest, n => if m = n then some l else childrenFor rest n

/-- Length of a snapshot list. -/
def snapListLength : SnapList → Nat
  | .nil => 0
  | .cons _ t => snapListLength t + 1

/-- All nodes of a snapshot list satisfy a predicate. -/
def snapListAll (P : Snapshot → Prop) : SnapList → Prop
  | .nil => True
  | .cons s t => P s ∧ snapListAll P t

mutual
/-- A snapshot tree mentions relation `n` nowhere (no tree node carries a
child group for that relation). -/
def noRelSnap (n : String) : Snapshot → Prop
  | .mk _ _ _ ch => noRelChildren n ch
def noRelChildren (n : String) : SnapChildren → Prop
  | .nil => True
  | .cons m l rest => m ≠ n ∧ noRelList n l ∧ noRelChildren n rest
def noRelList (n : String) : SnapList → Prop
  | .nil => True
  | .cons s rest => noRelSnap n s ∧ noRelList n rest
end

/-- Modelled from the spec: the error a failed duplication surfaces,
identifying the failing node's business-object type and source identifier. -/
structure DuplicationError where
  boType : String
  srcId : String
deriving DecidableEq, Repr

/-- Modelled from the spec: the SOAP gateway's nextNumber allocation, as a
deterministic oracle from business-object type and call count to the freshly
allocated identifier; the count is threaded through the duplication. -/
structure Env where
  nextNum : String → Nat → String

/-- Modelled from the spec: the read side of the source system, as an oracle
giving a record's field map by type and identifier, and the identifiers of
the dependent records of a relation by child type, foreign-key field and
parent identifier. -/
structure DB where
  getRecord : String → String → Option Fields
  getDependents : String → String → String → List String

/-- Modelled from the spec: a DuplicationPlan maps field names to override
values and names the relations included in the copy. -/
structure DuplicationPlan where
  fieldOverrides : Fields
  included : List String

/-- Read events of one duplication run, for stating what was and was not
read: a record read (tagged with the relation through which the node was
reached, none for the root) and a dependents query (tagged with its
relation). -/
inductive ReadEv where
  | readRecord (viaRel : Option String) (boType : String) (objId : String) : ReadEv
  | readDeps (relName : String) (childType : String) (fkField : String)
      (parentId : String) : ReadEv
deriving DecidableEq, Repr

/-- The relation a read event went through, if any. -/
def ReadEv.tag : ReadEv → Option String
  | .readRecord viaRel _ _ => viaRel
  | .readDeps relName _ _ _ => some relName

/-- Modelled from the spec: the identifier of a target record — the override
value when the plan overrides the identifier field, else the next number
allocated for the business-object type — together with the next call count. -/
def allocId (env : Env) (ov : Fields) (idF bt : String) (k : Nat) : String × Nat :=
  match lookupField ov idF with
  | some v => (v, k)
  | none => (env.nextNum bt k, k + 1)

/-- Duplicate each dependent record of one relation in order, threading the
allocation count, aborting at the first failure. -/
def dupDeps (step : String → Nat → Except DuplicationError (Snapshot × Nat × List ReadEv)) :
    List String → Nat → Except DuplicationError (SnapList × Nat × List ReadEv)
  | [], k => .ok (.nil, k, [])
  | dep :: ds, k =>
    match step dep k with
    | .error e => .error e
    | .ok (s, k1, lg1) =>
      match dupDeps step ds k1 with
      | .error e => .error e
      | .ok (l, k2, lg2) => .ok (.cons s l, k2, lg1 ++ lg2)

mutual
/-- Modelled from the spec, section 4.5: read the source record's copyable
fields, apply the overrides, allocate the identifier via nextNumber when it
is not overridden, then recursively duplicate the dependent records of every
included relation, substituting the new parent identifier into each child's
foreign-key field — a depth-first tree copy.  A missing source record fails
the node with a DuplicationError naming its type and source identifier. -/
def dupNode (env : Env) (db : DB) (incl : List String) (viaRel : Option String)
    (d : BusinessObjectDescriptor) (ov : Fields) (srcId : String) (k : Nat) :
    Except DuplicationError (Snapshot × Nat × List ReadEv) :=
  match d with
  | .mk bt idF cfs rels =>
    match db.getRecord bt srcId with
    | none => .error ⟨bt, srcId⟩
    | some src =>
      let a := allocId env ov idF bt k
      match dupRels env db incl rels srcId a.1 a.2 with
      | .error e => .error e
      | .ok (ch, k2, lg) =>
        .ok (Snapshot.mk bt srcId
              (setField (applyOverrides (restrictFields cfs src) ov) idF a.1) ch,
             k2, ReadEv.readRecord viaRel bt srcId :: lg)
/-- Modelled from the spec: walk the descriptor's relations in order; an
included relation queries the dependents and duplicates each of them with
the foreign-key field overridden to the new parent identifier; an excluded
relation is skipped entirely (neither queried nor copied). -/
def dupRels (env : Env) (db : DB) (incl : List String) (rl : RelList)
    (srcId newId : String) (k : Nat) :
    Except DuplicationError (SnapChildren × Nat × List ReadEv) :=
  match rl with
  | .nil => .ok (.nil, k, [])
  | .cons n fk c rest =>
    if n ∈ incl then
      match dupDeps (fun dep j => dupNode env db incl (some n) c [(fk, newId)] dep j)
          (db.getDependents c.boType fk srcId) k with
      | .error e => .error e
      | .ok (l, k1, lg1) =>
        match dupRels env db incl rest srcId newId k1 with
        | .error e => .error e
        | .ok (ch, k2, lg2) =>
          .ok (.cons n l ch, k2, ReadEv.readDeps n c.boType fk srcId :: (lg1 ++ lg2))
    else dupRels env db incl rest srcId newId k
end

/-- A created target record: business-object type and field map. -/
structure Record where
  boType : String
  fields : Fields
deriving DecidableEq, Repr

/-- The data of one snapshot node, in depth-first materialization order. -/
structure NodeData where
  boType : String
  srcId : String
  fields : Fields
deriving DecidableEq, Repr

def NodeData.toRecord (n : NodeData) : Record := ⟨n.boType, n.fields⟩

mutual
/-- Depth-first flattening of a snapshot tree: a node before its dependents,
relations in descriptor order, one relation's subtrees in source order. -/
def dfsSnap : Snapshot → List NodeData
  | .mk bt si fs ch => ⟨bt, si, fs⟩ :: dfsChildren ch
def dfsChildren : SnapChildren → List NodeData
  | .nil => []
  | .cons _ l rest => dfsList l ++ dfsChildren rest
def dfsList : SnapList → List NodeData
  | .nil => []
  | .cons s rest => dfsSnap s ++ dfsList rest
end

/-- Modelled from the spec: materialize the snapshot nodes in depth-first
order through the record-mutation component; a rejected insert aborts the
remaining traversal with a DuplicationError naming the failing node's type
and source identifier, and the records already created stay created (no
rollback). -/
def materializeList (insOk : String → Fields → Bool) :
    List NodeData → List Record × Option DuplicationError
  | [] => ([], none)
  | n :: rest =>
    if insOk n.boType n.fields then
      let r := materializeList insOk rest
      (n.toRecord :: r.1, r.2)
    else ([], some ⟨n.boType, n.srcId⟩)

/-- Modelled from the spec: one duplication run — build the snapshot tree
from the source, then materialize it on the target; either phase surfaces a
DuplicationError for its failing node. -/
def duplicate (env : Env) (db : DB) (insOk : String → Fields → Bool)
    (plan : DuplicationPlan) (d : BusinessObjectDescriptor) (srcId : String) :
    List Record × Option DuplicationError :=
  match dupNode env db plan.included none d plan.fieldOverrides srcId 0 with
  | .error e => ([], some e)
  | .ok (snap, _, _) => materializeList insOk (dfsSnap snap)

/-- Modelled from the spec: the on-file form of a snapshot tree — a stream of
tokens, one node token per tree node (type, source identifier, field map and
the number of its relation groups) and one relation token per group (relation
name and the number of its subtrees). -/
inductive Tok where
  | node (boType : String) (srcId : String) (fields : Fields) (nrel : Nat) : Tok
  | rel (name : String) (nchildren : Nat) : Tok
deriving DecidableEq, Repr

/-- Number of relation groups directly under a node. -/
def relCount : SnapChildren → Nat
  | .nil => 0
  | .cons _ _ rest => relCount rest + 1

mutual
/-- Modelled from the spec: the snapshot writer — serialize a tree node as
its node token followed by its relation groups. -/
def encodeSnap : Snapshot → List Tok
  | .mk bt si fs ch => Tok.node bt si fs (relCount ch) :: encodeRels ch
/-- Serialize the relation groups of a node in order. -/
def encodeRels : SnapChildren → List Tok
  | .nil => []
  | .cons n l rest => Tok.rel n (snapListLength l) :: (encodeList l ++ encodeRels rest)
/-- Serialize the subtrees of one relation group in order. -/
def encodeList : SnapList → List Tok
  | .nil => []
  | .cons s rest => encodeSnap s ++ encodeList rest
end

mutual
/-- Modelled from the spec: the snapshot reader — parse one tree node from
the token stream, returning it with the unread remainder; the fuel bounds
the recursion and is chosen large enough by the reader below. -/
def decodeSnap : Nat → List Tok → Option (Snapshot × List Tok)
  | 0, _ => none
  | f + 1, Tok.node bt si fs nrel :: rest =>
    match decodeRels f nrel rest with
    | some (ch, r) => some (Snapshot.mk bt si fs ch, r)
    | none => none
  | _ + 1, _ => none
/-- Parse the given number of relation groups from the token stream. -/
def decodeRels : Nat → Nat → List Tok → Option (SnapChildren × List Tok)
  | 0, _, _ => none
  | _ + 1, 0, toks => some (SnapChildren.nil, toks)
  | f + 1, n + 1, Tok.rel name m :: rest =>
    match decodeList f m rest with
    | some (l, r1) =>
      match decodeRels f n r1 with
      | some (ch, r2) => some (SnapChildren.cons name l ch, r2)
      | none => none
    | none => none
  | _ + 1, _ + 1, _ => none
/-- Parse the given number of subtrees from the token stream. -/
def decodeList : Nat → Nat → List Tok → Option (SnapList × List Tok)
  | 0, _, _ => none
  | _ + 1, 0, toks => some (SnapList.nil, toks)
  | f + 1, m + 1, toks =>
    match decodeSnap f toks with
    | some (s, r1) =>
      match decodeList f m r1 with
      | some (l, r2) => some (SnapList.cons s l, r2)
      | none => none
    | none => none
end

mutual
/-- Fuel sufficient for `decodeSnap` on the encoding of a tree. -/
def sizeSnap : Snapshot → Nat
  | .mk _ _ _ ch => 1 + sizeChildren ch
/-- Fuel sufficient for `decodeRels` on the encoding of relation groups. -/
def sizeChildren : SnapChildren → Nat
  | .nil => 1
  | .cons _ l rest => 1 + sizeList l + sizeChildren rest
/-- Fuel sufficient for `decodeList` on the encoding of subtrees. -/
def sizeList : SnapList → Nat
  | .nil => 1
  | .cons s rest => 1 + sizeSnap s + sizeList rest
end

/-- Modelled from the spec: write a snapshot tree to a duplication snapshot
file; the file content is the token stream. -/
def writeSnapshot (s : Snapshot) : List Tok := encodeSnap s

/-- Modelled from the spec: read a duplication snapshot file back into a
snapshot tree; fails on a malformed or incomplete file. -/
def readSnapshot (file : List Tok) : Option Snapshot :=
  match decodeSnap (3 * file.length) file with
  | some (s, []) => some s
  | _ => none

/-- Events of the database-access and reporting components, recording each
completeSQL call and each SQL string actually executed or file written. -/
inductive SqlEv where
  | completed (sql : String) : SqlEv
  | ran (sql : String) : SqlEv
  | wrote (file : String) : SqlEv
deriving DecidableEq, Repr

/-- Modelled from the spec: a connected server — the remote completeSQL
rewriting (server-side and opaque, an oracle here) and the relational store
answering an executed SQL string with a tabular result. -/
structure ServerConn where
  completeSQLFn : String → String
  runQueryFn : String → List Fields

/-- Modelled from the spec: the database-access query operation — the SQL
string is executed as passed; the component does not itself call completeSQL. -/
def query (srv : ServerConn) (sql : String) : List Fields × List SqlEv :=
  (srv.runQueryFn sql, [SqlEv.ran sql])

/-- Modelled from the spec: the reporting exportQuery operation — complete
the SQL via the SOAP gateway, execute the completed SQL via database access,
and write the tabular result to the target spreadsheet file. -/
def exportQuery (srv : ServerConn) (sql : String) (targetFile : String) :
    List Fields × List SqlEv :=
  (srv.runQueryFn (srv.completeSQLFn sql),
   [SqlEv.completed sql, SqlEv.ran (srv.completeSQLFn sql), SqlEv.wrote targetFile])

/-- An apostrophe character, written by code point. -/
def apos : Char := Char.ofNat 39

/-- The string-constant fixup of the sqlfmt branch of prettyPrintSQL:
replace a capital N, blank, quote by N, quote. -/
def fixStringConstants (s : String) : String :=
  s.replace (String.mk [Char.ofNat 78, Char.ofNat 32, apos]) (String.mk [Char.ofNat 78, apos])

/-- From examples/complete_sql.pyw, prettyPrintSQL(format, sql).  The two
formatting libraries are external; each call is modelled as a function that
returns the formatted string or an exception message.  The except clause of
the script names an undefined variable, so an exception raised inside the
try block escapes as a NameError rather than returning sql; this is modelled
by the error results. -/
def prettyPrintSQL (sqlfmtFormat : String → Except String String)
    (sqlparse2Format : String → Except String String)
    (sqlparseFormat : String → Except String String)
    (format : String) (sql : String) : Except String String :=
  if format = "sqlfmt" then
    match sqlfmtFormat sql with
    | .ok s => .ok (fixStringConstants s)
    | .error _ => .error "NameError"
  else if format = "sqlparse-2" then
    match sqlparse2Format sql with
    | .ok s => .ok s
    | .error _ => .error "NameError"
  else if format = "sqlparse" then
    match sqlparseFormat sql with
    | .ok s => .ok s
    | .error _ => .error "NameError"
  else .ok sql

/-- From examples/mengenabweichung_gui.pyw, parseDate(dateS).  The datetime
library's strptime for the fixed day.month.year format is external and is
modelled as a function returning the parsed value or none for a parse
failure; the input is an optional string, covering the None case. -/
def parseDate {α : Type} (strptime : String → Option α) (dateS : Option String) :
    Option α × Bool :=
  match dateS with
  | none => (none, true)
  | some s =>
    if s = "" then (none, true)
    else
      match strptime s with
      | some d => (some d, true)
      | none => (none, false)

/-- The arguments of one invocation of mengenabweichung.exportVonBis. -/
structure ExportArgs (α : Type) where
  file : String
  von : Option α
  bis : Option α
deriving DecidableEq, Repr

/-- From examples/mengenabweichung_gui.pyw, createFile(server, fileS, vonS,
bisS): parse the from date and return early on failure, parse the to date
and return early on failure, return early on a missing or empty file name,
else invoke the export with the file path and the two parsed dates.  The
result records the export invocation, none when the function returned early;
the pathlib conversion is modelled by the asPosix oracle. -/
def createFile {α : Type} (strptime : String → Option α) (asPosix : String → String)
    (fileS vonS bisS : Option String) : Option (ExportArgs α) :=
  let pv := parseDate strptime vonS
  if pv.2 = false then none
  else
    let pb := parseDate strptime bisS
    if pb.2 = false then none
    else
      match fileS with
      | none => none
      | some f => if f = "" then none else some ⟨asPosix f, pv.1, pb.1⟩

/-- Example fixture: next-number oracle allocating P0, P1, P2 in order. -/
def exEnv : Env :=
  ⟨fun _ k => match k with | 0 => "P0" | 1 => "P1" | _ => "P2"⟩

/-- Example fixture: the source system of the article scenario — article A100
with two bill-of-materials lines L1 and L2. -/
def exDb : DB where
  getRecord := fun bt oid =>
    if bt == "Artikel" && oid == "A100" then
      some [("id", "A100"), ("desc", "Widget")]
    else if bt == "StklLine" && oid == "L1" then
      some [("pos", "1"), ("artikelId", "A100"), ("material", "M1")]
    else if bt == "StklLine" && oid == "L2" then
      some [("pos", "2"), ("artikelId", "A100"), ("material", "M2")]
    else none
  getDependents := fun ct fk pid =>
    if ct == "StklLine" && fk == "artikelId" && pid == "A100" then ["L1", "L2"]
    else []

/-- Example fixture: descriptor of a bill-of-materials line. -/
def exLineDesc : BusinessObjectDescriptor :=
  .mk "StklLine" "pos" ["pos", "artikelId", "material"] .nil

/-- Example fixture: descriptor of an article with one dependent
bill-of-materials relation. -/
def exArtikelDesc : BusinessObjectDescriptor :=
  .mk "Artikel" "id" ["id", "desc"] (.cons "stueckliste" "artikelId" exLineDesc .nil)

/-- Example fixture: the plan of the scenario — override the identifier to
A200 and include the bill-of-materials relation. -/
def exPlan : DuplicationPlan := ⟨[("id", "A200")], ["stueckliste"]⟩

/-- Example fixture: the plan with the bill-of-materials relation excluded. -/
def exPlanNone : DuplicationPlan := ⟨[("id", "A200")], []⟩

/-- Example fixture: snapshot of the first copied line. -/
def exSnapL1 : Snapshot :=
  .mk "StklLine" "L1" [("pos", "P0"), ("artikelId", "A200"), ("material", "M1")] .nil

/-- Example fixture: snapshot of the second copied line. -/
def exSnapL2 : Snapshot :=
  .mk "StklLine" "L2" [("pos", "P1"), ("artikelId", "A200"), ("material", "M2")] .nil

/-- Example fixture: the snapshot tree the article scenario builds. -/
def exSnap : Snapshot :=
  .mk "Artikel" "A100" [("id", "A200"), ("desc", "Widget")]
    (.cons "stueckliste" (.cons exSnapL1 (.cons exSnapL2 .nil)) .nil)

/-- Example fixture: the read log of the article scenario. -/
def exLog : List ReadEv :=
  [.readRecord none "Artikel" "A100",
   .readDeps "stueckliste" "StklLine" "artikelId" "A100",
   .readRecord (some "stueckliste") "StklLine" "L1",
   .readRecord (some "stueckliste") "StklLine" "L2"]

/-- Example fixture: an insert oracle that rejects any record whose material
field is M2 — the second copied line fails. -/
def exInsOk : String → Fields → Bool :=
  fun _ fs => !(lookupField fs "material" == some "M2")

/-- Example fixture: a one-record source system for the relation-free case. -/
def exDbFlat : DB where
  getRecord := fun bt oid =>
    if bt == "T" && oid == "S1" then some [("id", "S1"), ("x", "7")] else none
  getDependents := fun _ _ _ => []

/-- Example fixture: a plan overriding only the x field. -/
def exPlanFlat : DuplicationPlan := ⟨[("x", "8")], []⟩

/-- Example fixture: the article scenario with the record of the second line
missing, so the tree build fails while reading a deep child node. -/
def exDbMissing : DB where
  getRecord := fun bt oid =>
    if bt == "Artikel" && oid == "A100" then
      some [("id", "A100"), ("desc", "Widget")]
    else if bt == "StklLine" && oid == "L1" then
      some [("pos", "1"), ("artikelId", "A100"), ("material", "M1")]
    else none
  getDependents := fun ct fk pid =>
    if ct == "StklLine" && fk == "artikelId" && pid == "A100" then ["L1", "L2"]
    else []

/-- Example fixture: a formatter that returns its input unchanged. -/
def idFormatter : String → Except String String := fun s => .ok s

/-- Example fixture: a date parser accepting exactly one date string. -/
def exStrptime : String → Option Nat :=
  fun s => if s == "01.02.2023" then some 20230201 else none

/-! Theorems.  First the association-list lemmas, then the claims. -/

theorem lookupField_setField (fs : Fields) (k v f : String) :
    lookupField (setField fs k v) f = if f = k then some v else lookupField fs f := by
  induction fs with
  | nil =>
    by_cases h : f = k
    · simp [setField, lookupField, h]
    · simp [setField, lookupField, h, Ne.symm h]
  | cons kv0 rest ih =>
    obtain ⟨k0, v0⟩ := kv0
    by_cases hk : k0 = k
    · subst hk
      by_cases h : f = k0
      · subst h; simp [setField, lookupField]
      · simp [setField, lookupField, h, Ne.symm h]
    · by_cases h : k0 = f
      · have hfk : f ≠ k := fun hh => hk (h.trans hh)
        simp [setField, lookupField, hk, h, hfk]
      · simp [setField, lookupField, hk, h, ih]

theorem lookupField_eq_none (l : Fields) (f : String) (h : f ∉ l.map Prod.fst) :
    lookupField l f = none := by
  induction l with
  | nil => rfl
  | cons kv rest ih =>
    obtain ⟨k, v⟩ := kv
    simp only [List.map_cons, List.mem_cons] at h
    push_neg at h
    simp [lookupField, Ne.symm h.1, ih h.2]

theorem lookupField_applyOverrides (ov : Fields) :
    ∀ (base : Fields) (f : String), (ov.map Prod.fst).Nodup →
      lookupField (applyOverrides base ov) f =
        match lookupField ov f with
        | some v => some v
        | none => lookupField base f := by
  induction ov with
  | nil => intro base f _; simp [applyOverrides, lookupField]
  | cons kv rest ih =>
    intro base f hnd
    obtain ⟨k, v⟩ := kv
    simp only [List.map_cons, List.nodup_cons] at hnd
    have happ : applyOverrides base ((k, v) :: rest) = applyOverrides (setField base k v) rest := rfl
    rw [happ, ih _ f hnd.2]
    by_cases h : f = k
    · subst h
      rw [lookupField_eq_none rest f hnd.1]
      simp [lookupField, lookupField_setField]
    · cases hrf : lookupField rest f with
      | none => simp [lookupField, Ne.symm h, hrf, lookupField_setField, h]
      | some w => simp [lookupField, Ne.symm h, hrf]

theorem lookupField_restrictFields_not_mem (cfs : List String) (src : Fields) (f : String)
    (h : f ∉ cfs) : lookupField (restrictFields cfs src) f = none := by
  induction cfs with
  | nil => rfl
  | cons c rest ih =>
    simp only [List.mem_cons] at h
    push_neg at h
    cases hc : lookupField src c with
    | none => simp [restrictFields, hc, ih h.2]
    | some v => simp [restrictFields, hc, lookupField, Ne.symm h.1, ih h.2]

theorem lookupField_restrictFields_mem (cfs : List String) (src : Fields) (f : String)
    (h : f ∈ cfs) : lookupField (restrictFields cfs src) f = lookupField src f := by
  induction cfs with
  | nil => cases h
  | cons c rest ih =>
    by_cases hfc : f = c
    · subst hfc
      cases hc : lookupField src f with
      | none =>
        by_cases hfr : f ∈ rest
        · simp [restrictFields, hc, ih hfr]
        · simp [restrictFields, hc, lookupField_restrictFields_not_mem rest src f hfr]
      | some v => simp [restrictFields, hc, lookupField]
    · have hfr : f ∈ rest := by
        rcases List.mem_cons.mp h with h1 | h2
        · exact absurd h1 hfc
        · exact h2
      cases hc : lookupField src c with
      | none => simp [restrictFields, hc, ih hfr]
      | some v => simp [restrictFields, hc, lookupField, Ne.symm hfc, ih hfr]

theorem applyOverrides_single (base : Fields) (k v : String) :
    applyOverrides base [(k, v)] = setField base k v := rfl

/-- C8: for every format string other than sqlfmt, sqlparse-2 and sqlparse,
and every SQL string, prettyPrintSQL returns the SQL string unchanged,
whatever the three formatting libraries would do. -/
theorem prettyPrintSQL_unrecognized_id
    (f1 f2 f3 : String → Except String String) (format sql : String)
    (h1 : format ≠ "sqlfmt") (h2 : format ≠ "sqlparse-2") (h3 : format ≠ "sqlparse") :
    prettyPrintSQL f1 f2 f3 format sql = .ok sql := by
  simp [prettyPrintSQL, h1, h2, h3]

/-- Witness for C8 at the format string of the GUI's dash option. -/
theorem prettyPrintSQL_unrecognized_id_witness :
    prettyPrintSQL idFormatter idFormatter idFormatter "-" "SELECT 1 FROM ARTIKEL" =
      .ok "SELECT 1 FROM ARTIKEL" :=
  prettyPrintSQL_unrecognized_id idFormatter idFormatter idFormatter
    "-" "SELECT 1 FROM ARTIKEL" (by decide) (by decide) (by decide)

/-- C9: parseDate never pairs a parsed value with a false flag; a missing or
empty input yields (none, true); a non-empty input the external parser
accepts yields the parsed value with true; a non-empty input the parser
rejects yields (none, false). -/
theorem parseDate_spec {α : Type} (strptime : String → Option α) :
    (∀ dateS, (parseDate strptime dateS).2 = false → (parseDate strptime dateS).1 = none) ∧
    parseDate strptime none = (none, true) ∧
    parseDate strptime (some "") = (none, true) ∧
    (∀ s d, s ≠ "" → strptime s = some d → parseDate strptime (some s) = (some d, true)) ∧
    (∀ s, s ≠ "" → strptime s = none → parseDate strptime (some s) = (none, false)) := by
  refine ⟨?_, rfl, by simp [parseDate], ?_, ?_⟩
  · intro dateS
    match dateS with
    | none => simp [parseDate]
    | some s =>
      by_cases hs : s = ""
      · simp [parseDate, hs]
      · cases hp : strptime s <;> simp [parseDate, hs, hp]
  · intro s d hs hp
    simp [parseDate, hs, hp]
  · intro s hs hp
    simp [parseDate, hs, hp]

/-- Witness for C9 at a concrete parser and inputs. -/
theorem parseDate_spec_witness :
    parseDate exStrptime none = (none, true) ∧
    parseDate exStrptime (some "01.02.2023") = (some 20230201, true) ∧
    parseDate exStrptime (some "2023-02-01") = (none, false) :=
  ⟨(parseDate_spec exStrptime).2.1,
   (parseDate_spec exStrptime).2.2.2.1 "01.02.2023" 20230201 (by decide) (by decide),
   (parseDate_spec exStrptime).2.2.2.2 "2023-02-01" (by decide) (by decide)⟩

/-- C10: createFile invokes the export exactly when both date strings parse
(an empty date counts as parsed) and the file name is neither missing nor
empty; in that case the export receives the converted file path and the two
parsed dates, and otherwise the function returns early with no export. -/
theorem createFile_spec {α : Type} (strptime : String → Option α)
    (asPosix : String → String) (fileS vonS bisS : Option String) :
    (createFile strptime asPosix fileS vonS bisS ≠ none ↔
      ((parseDate strptime vonS).2 = true ∧ (parseDate strptime bisS).2 = true ∧
        ∃ f, fileS = some f ∧ f ≠ "")) ∧
    (∀ f, fileS = some f → f ≠ "" → (parseDate strptime vonS).2 = true →
      (parseDate strptime bisS).2 = true →
      createFile strptime asPosix fileS vonS bisS =
        some ⟨asPosix f, (parseDate strptime vonS).1, (parseDate strptime bisS).1⟩) := by
  constructor
  · cases hv : (parseDate strptime vonS).2 with
    | false =>
      simp [createFile, hv]
    | true =>
      cases hb : (parseDate strptime bisS).2 with
      | false => simp [createFile, hv, hb]
      | true =>
        match fileS with
        | none => simp [createFile, hv, hb]
        | some f =>
          by_cases hf : f = "" <;> simp [createFile, hv, hb, hf]
  · intro f hfs hf hv hb
    subst hfs
    simp [createFile, hv, hb, hf]

/-- Witness for C10 at a concrete parser and inputs. -/
theorem createFile_spec_witness :
    createFile exStrptime (fun s => s) (some "out.xlsx") (some "01.02.2023") none =
      some ⟨"out.xlsx", some 20230201, none⟩ :=
  (createFile_spec exStrptime (fun s => s) (some "out.xlsx") (some "01.02.2023") none).2
    "out.xlsx" rfl (by decide) (by decide) (by decide)

/-- C4: the database-access query operation executes the SQL string exactly
as passed and never calls completeSQL, while the reporting exportQuery
operation always calls completeSQL on its SQL argument and executes the
completed string. -/
theorem query_raw_exportQuery_completes :
    (∀ (srv : ServerConn) (sql : String),
      (query srv sql).2 = [SqlEv.ran sql] ∧
      (∀ s, SqlEv.completed s ∉ (query srv sql).2) ∧
      (query srv sql).1 = srv.runQueryFn sql) ∧
    (∀ (srv : ServerConn) (sql targetFile : String),
      (exportQuery srv sql targetFile).2 =
        [SqlEv.completed sql, SqlEv.ran (srv.completeSQLFn sql), SqlEv.wrote targetFile] ∧
      (exportQuery srv sql targetFile).1 = srv.runQueryFn (srv.completeSQLFn sql)) := by
  refine ⟨fun srv sql => ⟨rfl, ?_, rfl⟩, fun srv sql tf => ⟨rfl, rfl⟩⟩
  intro s
  simp [query]

theorem materializeList_all_ok (ns : List NodeData) :
    materializeList (fun _ _ => true) ns = (ns.map NodeData.toRecord, none) := by
  induction ns with
  | nil => rfl
  | cons n rest ih => simp [materializeList, ih]

theorem dupDeps_ok (P : Snapshot → Prop) (Q : ReadEv → Prop)
    (step : String → Nat → Except DuplicationError (Snapshot × Nat × List ReadEv))
    (hstep : ∀ dep j s k1 lg1, step dep j = .ok (s, k1, lg1) → P s ∧ ∀ ev ∈ lg1, Q ev) :
    ∀ (deps : List String) (k : Nat) (l : SnapList) (k2 : Nat) (lg : List ReadEv),
      dupDeps step deps k = .ok (l, k2, lg) →
      snapListLength l = deps.length ∧ snapListAll P l ∧ ∀ ev ∈ lg, Q ev := by
  intro deps
  induction deps with
  | nil =>
    intro k l k2 lg h
    simp only [dupDeps] at h
    obtain ⟨h1, _, h3⟩ := by simpa using h
    subst h1; subst h3
    exact ⟨rfl, trivial, by simp⟩
  | cons dep ds ih =>
    intro k l k2 lg h
    simp only [dupDeps] at h
    cases hs : step dep k with
    | error e => simp [hs] at h
    | ok t =>
      obtain ⟨s, k1, lg1⟩ := t
      simp only [hs] at h
      cases hd : dupDeps step ds k1 with
      | error e => simp [hd] at h
      | ok t2 =>
        obtain ⟨l2, k3, lg2⟩ := t2
        simp only [hd] at h
        obtain ⟨h1, _, h3⟩ := by simpa using h
        subst h1; subst h3
        obtain ⟨ihl, ihall, ihq⟩ := ih k1 l2 k3 lg2 hd
        obtain ⟨hP, hQ⟩ := hstep dep k s k1 lg1 hs
        refine ⟨by simp [snapListLength, ihl], ⟨hP, ihall⟩, ?_⟩
        intro ev hev
        rcases List.mem_append.mp hev with h | h
        · exact hQ ev h
        · exact ihq ev h

theorem relMem_mem_names (n fk : String) (c : BusinessObjectDescriptor) :
    ∀ rl, relMem n fk c rl → n ∈ relNames rl
  | .cons m fk2 c2 rest, h => by
    rcases h with ⟨h1, _, _⟩ | h2
    · simp [relNames, h1]
    · simp [relNames, relMem_mem_names n fk c rest h2]

theorem dupNode_fk (env : Env) (db : DB) (incl : List String) (viaRel : Option String)
    (c : BusinessObjectDescriptor) (fk pid dep : String) (k : Nat)
    (s : Snapshot) (k1 : Nat) (lg : List ReadEv)
    (h : dupNode env db incl viaRel c [(fk, pid)] dep k = .ok (s, k1, lg)) :
    lookupField s.fields fk = some pid := by
  obtain ⟨bt, idF, cfs, rels⟩ := c
  simp only [dupNode] at h
  cases hr : db.getRecord bt dep with
  | none => simp [hr] at h
  | some src =>
    simp only [hr] at h
    cases hd : dupRels env db incl rels dep (allocId env [(fk, pid)] idF bt k).1
        (allocId env [(fk, pid)] idF bt k).2 with
    | error e => simp [hd] at h
    | ok t =>
      obtain ⟨ch, k3, lgr⟩ := t
      simp only [hd] at h
      obtain ⟨h1, _, _⟩ := by simpa using h
      rw [← h1]
      by_cases hif : idF = fk
      · subst hif
        have ha : (allocId env [(idF, pid)] idF bt k).1 = pid := by
          simp [allocId, lookupField]
        simp [Snapshot.fields, lookupField_setField, ha]
      · have hne : fk ≠ idF := fun hh => hif hh.symm
        simp [Snapshot.fields, lookupField_setField, hne, applyOverrides_single,
          lookupField_setField]

theorem dupNode_ok_elim (env : Env) (db : DB) (incl : List String) (viaRel : Option String)
    (bt idF : String) (cfs : List String) (rels : RelList) (ov : Fields) (srcId : String)
    (k : Nat) (snap : Snapshot) (k2 : Nat) (lg : List ReadEv)
    (h : dupNode env db incl viaRel (.mk bt idF cfs rels) ov srcId k = .ok (snap, k2, lg)) :
    ∃ src ch k3 lgr,
      db.getRecord bt srcId = some src ∧
      dupRels env db incl rels srcId (allocId env ov idF bt k).1 (allocId env ov idF bt k).2 =
        .ok (ch, k3, lgr) ∧
      snap = Snapshot.mk bt srcId
        (setField (applyOverrides (restrictFields cfs src) ov) idF
          (allocId env ov idF bt k).1) ch ∧
      k2 = k3 ∧ lg = ReadEv.readRecord viaRel bt srcId :: lgr := by
  simp only [dupNode] at h
  cases hr : db.getRecord bt srcId with
  | none => simp [hr] at h
  | some src =>
    simp only [hr] at h
    cases hd : dupRels env db incl rels srcId (allocId env ov idF bt k).1
        (allocId env ov idF bt k).2 with
    | error e => simp [hd] at h
    | ok t =>
      obtain ⟨ch, k3, lgr⟩ := t
      simp only [hd] at h
      obtain ⟨h1, h2, h3⟩ := by simpa using h
      exact ⟨src, ch, k3, lgr, rfl, rfl, h1.symm, h2.symm, h3.symm⟩

theorem dupRels_spec (env : Env) (db : DB) (incl : List String) :
    ∀ (rl : RelList) (srcId newId : String) (k : Nat) (ch : SnapChildren) (k2 : Nat)
      (lg : List ReadEv),
      dupRels env db incl rl srcId newId k = .ok (ch, k2, lg) →
      (relNames rl).Nodup →
      (∀ m l, childrenFor ch m = some l → m ∈ relNames rl) ∧
      (∀ n fk c, relMem n fk c rl → n ∈ incl →
        ∃ l, childrenFor ch n = some l ∧
          snapListLength l = (db.getDependents c.boType fk srcId).length ∧
          snapListAll (fun s => lookupField s.fields fk = some newId) l)
  | .nil, srcId, newId, k, ch, k2, lg, h, _ => by
    simp only [dupRels] at h
    obtain ⟨h1, _, _⟩ := by simpa using h
    subst h1
    exact ⟨fun m l hml => by simp [childrenFor] at hml, fun n fk c hmem => absurd hmem id⟩
  | .cons m fk2 c2 rest, srcId, newId, k, ch, k2, lg, h, hnd => by
    simp only [relNames, List.nodup_cons] at hnd
    simp only [dupRels] at h
    by_cases hm : m ∈ incl
    · rw [if_pos hm] at h
      cases hdd : dupDeps
          (fun dep j => dupNode env db incl (some m) c2 [(fk2, newId)] dep j)
          (db.getDependents c2.boType fk2 srcId) k with
      | error e => simp [hdd] at h
      | ok t =>
        obtain ⟨l, k1, lg1⟩ := t
        simp only [hdd] at h
        cases hdr : dupRels env db incl rest srcId newId k1 with
        | error e => simp [hdr] at h
        | ok t2 =>
          obtain ⟨ch2, k3, lg2⟩ := t2
          simp only [hdr] at h
          obtain ⟨h1, _, _⟩ := by simpa using h
          subst h1
          obtain ⟨ihA, ihB⟩ := dupRels_spec env db incl rest srcId newId k1 ch2 k3 lg2 hdr hnd.2
          have hlen := dupDeps_ok (fun s => lookupField s.fields fk2 = some newId)
            (fun _ => True)
            (fun dep j => dupNode env db incl (some m) c2 [(fk2, newId)] dep j)
            (fun dep j s k1 lg1 hs =>
              ⟨dupNode_fk env db incl (some m) c2 fk2 newId dep j s k1 lg1 hs,
               fun _ _ => trivial⟩)
            (db.getDependents c2.boType fk2 srcId) k l k1 lg1 hdd
          constructor
          · intro m2 l2 hml
            simp only [childrenFor] at hml
            by_cases hmm : m = m2
            · simp [relNames, hmm]
            · rw [if_neg hmm] at hml
              simp [relNames, ihA m2 l2 hml]
          · intro n fk c hmem hnincl
            rcases hmem with ⟨e1, e2, e3⟩ | hrest
            · subst e1; subst e2; subst e3
              refine ⟨l, ?_, hlen.1, hlen.2.1⟩
              simp [childrenFor]
            · have hn2 : n ∈ relNames rest := relMem_mem_names n fk c rest hrest
              have hnm : ¬ (m = n) := fun hh => hnd.1 (hh ▸ hn2)
              obtain ⟨l2, hl2, hlen2, hall2⟩ := ihB n fk c hrest hnincl
              exact ⟨l2, by simp [childrenFor, hnm, hl2], hlen2, hall2⟩
    · rw [if_neg hm] at h
      obtain ⟨ihA, ihB⟩ := dupRels_spec env db incl rest srcId newId k ch k2 lg h hnd.2
      constructor
      · intro m2 l2 hml
        simp [relNames, ihA m2 l2 hml]
      · intro n fk c hmem hnincl
        rcases hmem with ⟨e1, _, _⟩ | hrest
        · exact absurd (e1 ▸ hnincl) hm
        · exact ihB n fk c hrest hnincl

theorem materializeList_fail (insOk : String → Fields → Bool) :
    ∀ (ns : List NodeData) (created : List Record) (e : DuplicationError),
      materializeList insOk ns = (created, some e) →
      ∃ i, ∃ hi : i < ns.length,
        insOk (ns.get ⟨i, hi⟩).boType (ns.get ⟨i, hi⟩).fields = false ∧
        (∀ j (hj : j < ns.length), j < i →
          insOk (ns.get ⟨j, hj⟩).boType (ns.get ⟨j, hj⟩).fields = true) ∧
        created = (ns.take i).map NodeData.toRecord ∧
        e = ⟨(ns.get ⟨i, hi⟩).boType, (ns.get ⟨i, hi⟩).srcId⟩ := by
  intro ns
  induction ns with
  | nil => intro created e h; simp [materializeList] at h
  | cons n rest ih =>
    intro created e h
    simp only [materializeList] at h
    cases hins : insOk n.boType n.fields with
    | false =>
      simp only [hins, Bool.false_eq_true, if_false] at h
      obtain ⟨h1, h2⟩ := by simpa using h
      refine ⟨0, by simp, ?_, ?_, ?_, ?_⟩
      · simpa [List.get] using hins
      · intro j hj hj0; omega
      · simp [← h1]
      · simp [List.get, ← h2]
    | true =>
      simp only [hins, if_true] at h
      rcases hr2 : materializeList insOk rest with ⟨rs, eo⟩
      rw [hr2] at h
      obtain ⟨h1, h2⟩ := by simpa using h
      rw [h2] at hr2
      obtain ⟨i, hi, hfail, hpre, hcr, he⟩ := ih rs e hr2
      refine ⟨i + 1, by simpa using Nat.succ_lt_succ hi, ?_, ?_, ?_, ?_⟩
      · simpa [List.get] using hfail
      · intro j hj hji
        match j with
        | 0 => simpa [List.get] using hins
        | j' + 1 =>
          have hj' : j' < rest.length := by simpa using Nat.lt_of_succ_lt_succ hj
          have := hpre j' hj' (Nat.lt_of_succ_lt_succ hji)
          simpa [List.get] using this
      · simp [← h1, List.take_succ_cons, hcr]
      · simpa [List.get] using he

/-- C1: duplicating through a descriptor with no dependent relations creates
exactly one target record; every plan override appears in it verbatim, the
identifier field holds the nextNumber allocation when the plan does not
override it, and every other copyable field equals the source record's
field. -/
theorem duplicate_no_relations (env : Env) (db : DB) (plan : DuplicationPlan)
    (bt idF : String) (cfs : List String) (src : Fields) (srcId : String)
    (hnd : (plan.fieldOverrides.map Prod.fst).Nodup)
    (hsrc : db.getRecord bt srcId = some src) :
    ∃ fs : Fields,
      duplicate env db (fun _ _ => true) plan (.mk bt idF cfs .nil) srcId =
        ([⟨bt, fs⟩], none) ∧
      (∀ f v, lookupField plan.fieldOverrides f = some v → lookupField fs f = some v) ∧
      (lookupField plan.fieldOverrides idF = none →
        lookupField fs idF = some (env.nextNum bt 0)) ∧
      (∀ f, f ∈ cfs → f ≠ idF → lookupField plan.fieldOverrides f = none →
        lookupField fs f = lookupField src f) := by
  refine ⟨setField (applyOverrides (restrictFields cfs src) plan.fieldOverrides) idF
      (allocId env plan.fieldOverrides idF bt 0).1, ?_, ?_, ?_, ?_⟩
  · have hdup : dupNode env db plan.included none (.mk bt idF cfs .nil)
        plan.fieldOverrides srcId 0 =
        .ok (Snapshot.mk bt srcId
              (setField (applyOverrides (restrictFields cfs src) plan.fieldOverrides) idF
                (allocId env plan.fieldOverrides idF bt 0).1) .nil,
             (allocId env plan.fieldOverrides idF bt 0).2,
             [ReadEv.readRecord none bt srcId]) := by
      simp [dupNode, hsrc, dupRels]
    simp [duplicate, hdup, dfsSnap, dfsChildren, materializeList, NodeData.toRecord]
  · intro f v hov
    by_cases hfi : f = idF
    · subst hfi
      have ha : (allocId env plan.fieldOverrides f bt 0).1 = v := by
        simp [allocId, hov]
      simp [lookupField_setField, ha]
    · rw [lookupField_setField, if_neg hfi,
        lookupField_applyOverrides plan.fieldOverrides _ f hnd, hov]
  · intro hov
    have ha : (allocId env plan.fieldOverrides idF bt 0).1 = env.nextNum bt 0 := by
      simp [allocId, hov]
    simp [lookupField_setField, ha]
  · intro f hf hfi hov
    rw [lookupField_setField, if_neg hfi,
      lookupField_applyOverrides plan.fieldOverrides _ f hnd, hov,
      lookupField_restrictFields_mem cfs src f hf]

/-- Witness for C1 at the one-record fixture. -/
theorem duplicate_no_relations_witness :
    ∃ fs : Fields,
      duplicate exEnv exDbFlat (fun _ _ => true) exPlanFlat (.mk "T" "id" ["id", "x"] .nil)
        "S1" = ([⟨"T", fs⟩], none) ∧
      (∀ f v, lookupField exPlanFlat.fieldOverrides f = some v →
        lookupField fs f = some v) ∧
      (lookupField exPlanFlat.fieldOverrides "id" = none →
        lookupField fs "id" = some (exEnv.nextNum "T" 0)) ∧
      (∀ f, f ∈ ["id", "x"] → f ≠ "id" → lookupField exPlanFlat.fieldOverrides f = none →
        lookupField fs f = lookupField [("id", "S1"), ("x", "7")] f) :=
  duplicate_no_relations exEnv exDbFlat exPlanFlat "T" "id" ["id", "x"]
    [("id", "S1"), ("x", "7")] "S1" (by decide) (by rfl)

/-- C2: after a successful tree build, every included relation of the root
descriptor yields, per source dependent record, exactly one target child
node whose foreign-key field holds the new parent identifier, and the
duplication materializes the snapshot depth-first; the article scenario
yields the A200 article and its two lines with parent reference A200. -/
theorem duplicate_included_relations :
    (∀ (env : Env) (db : DB) (plan : DuplicationPlan) (bt idF : String)
        (cfs : List String) (rels : RelList) (srcId : String)
        (snap : Snapshot) (k : Nat) (lg : List ReadEv),
      dupNode env db plan.included none (.mk bt idF cfs rels) plan.fieldOverrides srcId 0 =
        .ok (snap, k, lg) →
      (relNames rels).Nodup →
      ∃ newId, lookupField snap.fields idF = some newId ∧
        duplicate env db (fun _ _ => true) plan (.mk bt idF cfs rels) srcId =
          ((dfsSnap snap).map NodeData.toRecord, none) ∧
        (∀ n fk c, relMem n fk c rels → n ∈ plan.included →
          ∃ l, childrenFor snap.children n = some l ∧
            snapListLength l = (db.getDependents c.boType fk srcId).length ∧
            snapListAll (fun s => lookupField s.fields fk = some newId) l)) ∧
    duplicate exEnv exDb (fun _ _ => true) exPlan exArtikelDesc "A100" =
      ([⟨"Artikel", [("id", "A200"), ("desc", "Widget")]⟩,
        ⟨"StklLine", [("pos", "P0"), ("artikelId", "A200"), ("material", "M1")]⟩,
        ⟨"StklLine", [("pos", "P1"), ("artikelId", "A200"), ("material", "M2")]⟩], none) := by
  constructor
  · intro env db plan bt idF cfs rels srcId snap k lg hb hnd
    obtain ⟨src, ch, k3, lgr, hsrc, hdr, hsnap, hk, hlg⟩ :=
      dupNode_ok_elim env db plan.included none bt idF cfs rels plan.fieldOverrides
        srcId 0 snap k lg hb
    refine ⟨(allocId env plan.fieldOverrides idF bt 0).1, ?_, ?_, ?_⟩
    · rw [hsnap]
      simp [Snapshot.fields, lookupField_setField]
    · simp [duplicate, hb, materializeList_all_ok]
    · intro n fk c hmem hincl
      have hspec := (dupRels_spec env db plan.included rels srcId
        (allocId env plan.fieldOverrides idF bt 0).1
        (allocId env plan.fieldOverrides idF bt 0).2 ch k3 lgr hdr hnd).2
      have hres := hspec n fk c hmem hincl
      rw [hsnap]
      simpa [Snapshot.children] using hres
  · rfl

/-- Witness for C2, instantiating the tree-shape part at the article
scenario. -/
theorem duplicate_included_relations_witness :
    ∃ newId, lookupField exSnap.fields "id" = some newId ∧
      duplicate exEnv exDb (fun _ _ => true) exPlan exArtikelDesc "A100" =
        ((dfsSnap exSnap).map NodeData.toRecord, none) ∧
      (∀ n fk c, relMem n fk c (.cons "stueckliste" "artikelId" exLineDesc .nil) →
        n ∈ exPlan.included →
        ∃ l, childrenFor exSnap.children n = some l ∧
          snapListLength l = (exDb.getDependents c.boType fk "A100").length ∧
          snapListAll (fun s => lookupField s.fields fk = some newId) l) :=
  duplicate_included_relations.1 exEnv exDb exPlan "Artikel" "id" ["id", "desc"]
    (.cons "stueckliste" "artikelId" exLineDesc .nil) "A100" exSnap 2 exLog
    (by rfl) (by decide)

theorem dupDeps_error (P : DuplicationError → Prop)
    (step : String → Nat → Except DuplicationError (Snapshot × Nat × List ReadEv))
    (hstep : ∀ dep j e, step dep j = .error e → P e) :
    ∀ (deps : List String) (k : Nat) (e : DuplicationError),
      dupDeps step deps k = .error e → P e := by
  intro deps
  induction deps with
  | nil => intro k e h; simp [dupDeps] at h
  | cons dep ds ih =>
    intro k e h
    simp only [dupDeps] at h
    cases hs : step dep k with
    | error e2 =>
      simp only [hs] at h
      have h2 : e2 = e := by simpa using h
      exact h2 ▸ hstep dep k e2 hs
    | ok t =>
      obtain ⟨s, k1, lg1⟩ := t
      simp only [hs] at h
      cases hd : dupDeps step ds k1 with
      | error e2 =>
        simp only [hd] at h
        have h2 : e2 = e := by simpa using h
        exact ih k1 e (h2 ▸ hd)
      | ok t2 =>
        obtain ⟨l2, k3, lg2⟩ := t2
        simp only [hd] at h
        simp at h

mutual
theorem dupNode_error_read (env : Env) (db : DB) (incl : List String) :
    ∀ (d : BusinessObjectDescriptor) (viaRel : Option String) (ov : Fields)
      (srcId : String) (k : Nat) (e : DuplicationError),
      dupNode env db incl viaRel d ov srcId k = .error e →
      db.getRecord e.boType e.srcId = none
  | .mk bt idF cfs rels, viaRel, ov, srcId, k, e, h => by
    simp only [dupNode] at h
    cases hr : db.getRecord bt srcId with
    | none =>
      simp only [hr] at h
      have h2 : (⟨bt, srcId⟩ : DuplicationError) = e := by simpa using h
      rw [← h2]
      exact hr
    | some src =>
      simp only [hr] at h
      cases hd : dupRels env db incl rels srcId (allocId env ov idF bt k).1
          (allocId env ov idF bt k).2 with
      | error e2 =>
        simp only [hd] at h
        have h2 : e2 = e := by simpa using h
        exact dupRels_error_read env db incl rels srcId (allocId env ov idF bt k).1
          (allocId env ov idF bt k).2 e (h2 ▸ hd)
      | ok t =>
        obtain ⟨ch, k3, lgr⟩ := t
        simp only [hd] at h
        simp at h
theorem dupRels_error_read (env : Env) (db : DB) (incl : List String) :
    ∀ (rl : RelList) (srcId newId : String) (k : Nat) (e : DuplicationError),
      dupRels env db incl rl srcId newId k = .error e →
      db.getRecord e.boType e.srcId = none
  | .nil, srcId, newId, k, e, h => by simp [dupRels] at h
  | .cons m fk c rest, srcId, newId, k, e, h => by
    simp only [dupRels] at h
    by_cases hm : m ∈ incl
    · rw [if_pos hm] at h
      cases hdd : dupDeps (fun dep j => dupNode env db incl (some m) c [(fk, newId)] dep j)
          (db.getDependents c.boType fk srcId) k with
      | error e2 =>
        simp only [hdd] at h
        have h2 : e2 = e := by simpa using h
        exact dupDeps_error (fun e3 => db.getRecord e3.boType e3.srcId = none)
          (fun dep j => dupNode env db incl (some m) c [(fk, newId)] dep j)
          (fun dep j e3 hs =>
            dupNode_error_read env db incl c (some m) [(fk, newId)] dep j e3 hs)
          (db.getDependents c.boType fk srcId) k e (h2 ▸ hdd)
      | ok t =>
        obtain ⟨l, k1, lg1⟩ := t
        simp only [hdd] at h
        cases hdr : dupRels env db incl rest srcId newId k1 with
        | error e2 =>
          simp only [hdr] at h
          have h2 : e2 = e := by simpa using h
          exact dupRels_error_read env db incl rest srcId newId k1 e (h2 ▸ hdr)
        | ok t2 =>
          obtain ⟨ch2, k3, lg2⟩ := t2
          simp only [hdr] at h
          simp at h
    · rw [if_neg hm] at h
      exact dupRels_error_read env db incl rest srcId newId k e h
end

/-- C3: any failing duplication run aborts with a DuplicationError naming
the failing node.  When the tree build fails — some node's record cannot be
read — the run creates no record at all and the surfaced error names a node
whose record read fails (type and source identifier), not some other node.
When materialization fails, there is a failing position in the depth-first
node list: every node before it was inserted and stays in the created list,
no node from the failing position on is copied, and the error names the
failing node's type and source identifier. -/
theorem duplicate_abort_on_failure :
    (∀ (env : Env) (db : DB) (insOk : String → Fields → Bool) (plan : DuplicationPlan)
        (d : BusinessObjectDescriptor) (srcId : String) (e : DuplicationError),
      dupNode env db plan.included none d plan.fieldOverrides srcId 0 = .error e →
      duplicate env db insOk plan d srcId = ([], some e) ∧
      db.getRecord e.boType e.srcId = none) ∧
    (∀ (env : Env) (db : DB) (insOk : String → Fields → Bool) (plan : DuplicationPlan)
        (d : BusinessObjectDescriptor) (srcId : String) (snap : Snapshot) (k : Nat)
        (lg : List ReadEv) (created : List Record) (e : DuplicationError),
      dupNode env db plan.included none d plan.fieldOverrides srcId 0 = .ok (snap, k, lg) →
      duplicate env db insOk plan d srcId = (created, some e) →
      ∃ i, ∃ hi : i < (dfsSnap snap).length,
        insOk ((dfsSnap snap).get ⟨i, hi⟩).boType ((dfsSnap snap).get ⟨i, hi⟩).fields =
          false ∧
        (∀ j (hj : j < (dfsSnap snap).length), j < i →
          insOk ((dfsSnap snap).get ⟨j, hj⟩).boType ((dfsSnap snap).get ⟨j, hj⟩).fields =
            true) ∧
        created = ((dfsSnap snap).take i).map NodeData.toRecord ∧
        e = ⟨((dfsSnap snap).get ⟨i, hi⟩).boType, ((dfsSnap snap).get ⟨i, hi⟩).srcId⟩) := by
  constructor
  · intro env db insOk plan d srcId e hb
    refine ⟨by simp [duplicate, hb], ?_⟩
    exact dupNode_error_read env db plan.included d none plan.fieldOverrides srcId 0 e hb
  · intro env db insOk plan d srcId snap k lg created e hb hd
    have hm : materializeList insOk (dfsSnap snap) = (created, some e) := by
      simpa [duplicate, hb] using hd
    exact materializeList_fail insOk (dfsSnap snap) created e hm

/-- Witness for C3: a build failure at the missing deep child L2 (nothing
created, the error names L2, whose record read fails), and the article
scenario with an insert oracle rejecting the second line. -/
theorem duplicate_abort_on_failure_witness :
    (duplicate exEnv exDbMissing exInsOk exPlan exArtikelDesc "A100" =
        ([], some ⟨"StklLine", "L2"⟩) ∧
      exDbMissing.getRecord "StklLine" "L2" = none) ∧
    (∃ i, ∃ hi : i < (dfsSnap exSnap).length,
      exInsOk ((dfsSnap exSnap).get ⟨i, hi⟩).boType ((dfsSnap exSnap).get ⟨i, hi⟩).fields =
        false ∧
      (∀ j (hj : j < (dfsSnap exSnap).length), j < i →
        exInsOk ((dfsSnap exSnap).get ⟨j, hj⟩).boType ((dfsSnap exSnap).get ⟨j, hj⟩).fields =
          true) ∧
      [(⟨"Artikel", [("id", "A200"), ("desc", "Widget")]⟩ : Record),
       ⟨"StklLine", [("pos", "P0"), ("artikelId", "A200"), ("material", "M1")]⟩] =
        ((dfsSnap exSnap).take i).map NodeData.toRecord ∧
      (⟨"StklLine", "L2"⟩ : DuplicationError) =
        ⟨((dfsSnap exSnap).get ⟨i, hi⟩).boType, ((dfsSnap exSnap).get ⟨i, hi⟩).srcId⟩) :=
  ⟨duplicate_abort_on_failure.1 exEnv exDbMissing exInsOk exPlan exArtikelDesc "A100"
      ⟨"StklLine", "L2"⟩ (by rfl),
   duplicate_abort_on_failure.2 exEnv exDb exInsOk exPlan exArtikelDesc "A100" exSnap 2 exLog
      [⟨"Artikel", [("id", "A200"), ("desc", "Widget")]⟩,
       ⟨"StklLine", [("pos", "P0"), ("artikelId", "A200"), ("material", "M1")]⟩]
      ⟨"StklLine", "L2"⟩ (by rfl) (by rfl)⟩

theorem snapListAll_noRelList (n : String) :
    ∀ l, snapListAll (noRelSnap n) l → noRelList n l
  | .nil, _ => trivial
  | .cons _ t, h => ⟨h.1, snapListAll_noRelList n t h.2⟩

mutual
theorem dupNode_excluded (env : Env) (db : DB) (incl : List String) (n : String) :
    ∀ (d : BusinessObjectDescriptor) (viaRel : Option String) (ov : Fields)
      (srcId : String) (k : Nat) (snap : Snapshot) (k2 : Nat) (lg : List ReadEv),
      dupNode env db incl viaRel d ov srcId k = .ok (snap, k2, lg) →
      n ∉ incl → viaRel ≠ some n →
      noRelSnap n snap ∧ ∀ ev ∈ lg, ReadEv.tag ev ≠ some n
  | .mk bt idF cfs rels, viaRel, ov, srcId, k, snap, k2, lg, h, hn, hv => by
    obtain ⟨src, ch, k3, lgr, hsrc, hdr, hsnap, hk, hlg⟩ :=
      dupNode_ok_elim env db incl viaRel bt idF cfs rels ov srcId k snap k2 lg h
    obtain ⟨hch, hlgr⟩ := dupRels_excluded env db incl n rels srcId
      (allocId env ov idF bt k).1 (allocId env ov idF bt k).2 ch k3 lgr hdr hn
    constructor
    · rw [hsnap]
      exact hch
    · intro ev hev
      rw [hlg] at hev
      rcases List.mem_cons.mp hev with rfl | hev2
      · simpa [ReadEv.tag] using hv
      · exact hlgr ev hev2
theorem dupRels_excluded (env : Env) (db : DB) (incl : List String) (n : String) :
    ∀ (rl : RelList) (srcId newId : String) (k : Nat) (ch : SnapChildren) (k2 : Nat)
      (lg : List ReadEv),
      dupRels env db incl rl srcId newId k = .ok (ch, k2, lg) →
      n ∉ incl →
      noRelChildren n ch ∧ ∀ ev ∈ lg, ReadEv.tag ev ≠ some n
  | .nil, srcId, newId, k, ch, k2, lg, h, hn => by
    simp only [dupRels] at h
    obtain ⟨h1, _, h3⟩ := by simpa using h
    subst h1; subst h3
    exact ⟨trivial, by simp⟩
  | .cons m fk c rest, srcId, newId, k, ch, k2, lg, h, hn => by
    simp only [dupRels] at h
    by_cases hm : m ∈ incl
    · rw [if_pos hm] at h
      cases hdd : dupDeps (fun dep j => dupNode env db incl (some m) c [(fk, newId)] dep j)
          (db.getDependents c.boType fk srcId) k with
      | error e => simp [hdd] at h
      | ok t =>
        obtain ⟨l, k1, lg1⟩ := t
        simp only [hdd] at h
        cases hdr : dupRels env db incl rest srcId newId k1 with
        | error e => simp [hdr] at h
        | ok t2 =>
          obtain ⟨ch2, k3, lg2⟩ := t2
          simp only [hdr] at h
          obtain ⟨h1, _, h3⟩ := by simpa using h
          subst h1; subst h3
          have hmn : m ≠ n := fun hh => hn (hh ▸ hm)
          have hdd2 := dupDeps_ok (noRelSnap n) (fun ev => ReadEv.tag ev ≠ some n)
            (fun dep j => dupNode env db incl (some m) c [(fk, newId)] dep j)
            (fun dep j s ka lga hs =>
              dupNode_excluded env db incl n c (some m) [(fk, newId)] dep j s ka lga hs hn
                (by simpa using hmn))
            (db.getDependents c.boType fk srcId) k l k1 lg1 hdd
          obtain ⟨ihc, ihlg⟩ :=
            dupRels_excluded env db incl n rest srcId newId k1 ch2 k3 lg2 hdr hn
          refine ⟨⟨hmn, snapListAll_noRelList n l hdd2.2.1, ihc⟩, ?_⟩
          intro ev hev
          rcases List.mem_cons.mp hev with rfl | hev2
          · simpa [ReadEv.tag] using hmn
          · rcases List.mem_append.mp hev2 with h4 | h5
            · exact hdd2.2.2 ev h4
            · exact ihlg ev h5
    · rw [if_neg hm] at h
      exact dupRels_excluded env db incl n rest srcId newId k ch k2 lg h hn
end

/-- C7: a relation the plan excludes contributes nothing to a duplication
run — no node of the built snapshot tree carries a child group for that
relation (zero target records for it), and no read of the run, anywhere in
the tree, went through that relation (its dependents are neither queried nor
read). -/
theorem duplicate_excluded_relation (env : Env) (db : DB) (plan : DuplicationPlan)
    (d : BusinessObjectDescriptor) (srcId : String) (n : String)
    (snap : Snapshot) (k : Nat) (lg : List ReadEv)
    (hb : dupNode env db plan.included none d plan.fieldOverrides srcId 0 =
      .ok (snap, k, lg))
    (hn : n ∉ plan.included) :
    noRelSnap n snap ∧ ∀ ev ∈ lg, ReadEv.tag ev ≠ some n :=
  dupNode_excluded env db plan.included n d none plan.fieldOverrides srcId 0 snap k lg hb hn
    (by simp)

/-- Witness for C7: the article scenario with the bill-of-materials relation
excluded. -/
theorem duplicate_excluded_relation_witness :
    noRelSnap "stueckliste"
      (Snapshot.mk "Artikel" "A100" [("id", "A200"), ("desc", "Widget")] .nil) ∧
    ∀ ev ∈ [ReadEv.readRecord none "Artikel" "A100"],
      ReadEv.tag ev ≠ some "stueckliste" :=
  duplicate_excluded_relation exEnv exDb exPlanNone exArtikelDesc "A100" "stueckliste"
    (Snapshot.mk "Artikel" "A100" [("id", "A200"), ("desc", "Widget")] .nil) 0
    [ReadEv.readRecord none "Artikel" "A100"] (by rfl) (by decide)

mutual
theorem decodeSnap_encode : ∀ (s : Snapshot) (f : Nat) (rest : List Tok),
      sizeSnap s ≤ f → decodeSnap f (encodeSnap s ++ rest) = some (s, rest)
  | .mk bt si fs ch, f, rest, hf => by
    cases f with
    | zero => simp [sizeSnap] at hf
    | succ f2 =>
      have h2 : sizeChildren ch ≤ f2 := by
        simp [sizeSnap] at hf
        omega
      simp [encodeSnap, decodeSnap, decodeRels_encode ch f2 rest h2]
theorem decodeRels_encode : ∀ (ch : SnapChildren) (f : Nat) (rest : List Tok),
      sizeChildren ch ≤ f →
      decodeRels f (relCount ch) (encodeRels ch ++ rest) = some (ch, rest)
  | .nil, f, rest, hf => by
    cases f with
    | zero => simp [sizeChildren] at hf
    | succ f2 => simp [relCount, encodeRels, decodeRels]
  | .cons m l ch2, f, rest, hf => by
    cases f with
    | zero => simp [sizeChildren] at hf
    | succ f2 =>
      have h1 : sizeList l ≤ f2 := by
        simp [sizeChildren] at hf
        omega
      have h2 : sizeChildren ch2 ≤ f2 := by
        simp [sizeChildren] at hf
        omega
      simp [relCount, encodeRels, decodeRels, List.append_assoc,
        decodeList_encode l f2 (encodeRels ch2 ++ rest) h1,
        decodeRels_encode ch2 f2 rest h2]
theorem decodeList_encode : ∀ (l : SnapList) (f : Nat) (rest : List Tok),
      sizeList l ≤ f →
      decodeList f (snapListLength l) (encodeList l ++ rest) = some (l, rest)
  | .nil, f, rest, hf => by
    cases f with
    | zero => simp [sizeList] at hf
    | succ f2 => simp [snapListLength, encodeList, decodeList]
  | .cons s t, f, rest, hf => by
    cases f with
    | zero => simp [sizeList] at hf
    | succ f2 =>
      have h1 : sizeSnap s ≤ f2 := by
        simp [sizeList] at hf
        omega
      have h2 : sizeList t ≤ f2 := by
        simp [sizeList] at hf
        omega
      simp [snapListLength, encodeList, decodeList, List.append_assoc,
        decodeSnap_encode s f2 (encodeList t ++ rest) h1,
        decodeList_encode t f2 rest h2]
end

mutual
theorem sizeSnap_le : ∀ s : Snapshot, sizeSnap s + 1 ≤ 3 * (encodeSnap s).length
  | .mk bt si fs ch => by
    have h := sizeChildren_le ch
    simp only [sizeSnap, encodeSnap, List.length_cons]
    omega
theorem sizeChildren_le : ∀ ch : SnapChildren, sizeChildren ch ≤ 3 * (encodeRels ch).length + 1
  | .nil => by simp [sizeChildren, encodeRels]
  | .cons m l ch2 => by
    have h1 := sizeList_le l
    have h2 := sizeChildren_le ch2
    simp only [sizeChildren, encodeRels, List.length_cons, List.length_append]
    omega
theorem sizeList_le : ∀ l : SnapList, sizeList l ≤ 3 * (encodeList l).length + 1
  | .nil => by simp [sizeList, encodeList]
  | .cons s t => by
    have h1 := sizeSnap_le s
    have h2 := sizeList_le t
    simp only [sizeList, encodeList, List.length_append]
    omega
end

/-- C5: writing a snapshot tree to a duplication snapshot file and reading
the file back with the matching reader reconstructs the same snapshot — the
same field map at every node and the same relation structure. -/
theorem snapshot_roundtrip : ∀ s : Snapshot, readSnapshot (writeSnapshot s) = some s := by
  intro s
  have hd := decodeSnap_encode s (3 * (encodeSnap s).length) []
    (by have := sizeSnap_le s; omega)
  rw [List.append_nil] at hd
  simp [readSnapshot, writeSnapshot, hd]

end PyAPplus64
